import Mathlib

/-!
Verification of the `RegisterCandidate` entity of the HAWKEYE plugin
(`src/plugins/hawkeye/include/hawkeye/register_candidate.h`).

The header under `src/` only declares the class: the member list, the four
set-taking constructors, the defaulted constructor, the comparison operators
and the accessors.  The implementation file with the bodies of the
constructors and of `operator==` / `operator<` is not part of the sources, so
those bodies are modelled from the specification's words (each such
definition carries a doc comment starting `Modelled from the spec:`).

Gates are modelled by stable numeric identifiers (the spec's recommended
representation), and `std::set<Gate*>` by `Finset ℕ`.  The canonically
sorted sequence of element identifiers of a set, used by the ordering's
lexicographic tie-breaks, is `sortedIds` below.
-/

namespace Hawkeye

/-- A gate is referenced through a stable numeric element identifier. -/
abbrev Gate := ℕ

/-- The member list of `RegisterCandidate` as declared in the header
(lines 149–173): the owning netlist, the bit-size, the round-based flag,
and the input and output registers. The netlist is modelled by a numeric
identifier since comparisons never traverse it. -/
structure RegisterCandidate where
  m_netlist : ℕ
  m_size : ℕ
  m_is_round_based : Bool
  m_in_reg : Finset Gate
  m_out_reg : Finset Gate
deriving DecidableEq

namespace RegisterCandidate

/-- Accessor `get_netlist`: returns the netlist associated with the candidate. -/
def get_netlist (c : RegisterCandidate) : ℕ :=
  c.m_netlist

/-- Accessor `get_size`: returns the size (register width) of the candidate. -/
def get_size (c : RegisterCandidate) : ℕ :=
  c.m_size

/-- Accessor `is_round_based`: whether the candidate is round-based. -/
def is_round_based (c : RegisterCandidate) : Bool :=
  c.m_is_round_based

/-- Accessor `get_input_reg`: returns the candidate's input register. -/
def get_input_reg (c : RegisterCandidate) : Finset Gate :=
  c.m_in_reg

/-- Accessor `get_output_reg`: returns the candidate's output register. -/
def get_output_reg (c : RegisterCandidate) : Finset Gate :=
  c.m_out_reg

/-- Lexicographic strict order on lists of element identifiers. -/
def listLexLt : List ℕ → List ℕ → Bool
  | [], [] => false
  | [], _ :: _ => true
  | _ :: _, [] => false
  | a :: as, b :: bs => if a < b then true else if b < a then false else listLexLt as bs

/-- Canonical sorting of a multiset of element identifiers into a list. -/
def msort (m : Multiset ℕ) : List ℕ :=
  Quotient.lift (List.insertionSort (· ≤ ·))
    (fun l₁ l₂ h =>
      List.eq_of_perm_of_sorted
        (((List.perm_insertionSort _ l₁).trans h).trans (List.perm_insertionSort _ l₂).symm)
        (List.sorted_insertionSort _ l₁) (List.sorted_insertionSort _ l₂))
    m

/-- The canonically sorted sequence of element identifiers of an element
set, imposed before any lexicographic comparison (sets carry no inherent
order). -/
def sortedIds (s : Finset Gate) : List ℕ :=
  msort s.val

/-- Strict order on element sets: lexicographic comparison of the sets
rendered as canonically sorted sequences of element identifiers (the
semantics of comparing two `std::set`s). -/
def setLt (a b : Finset Gate) : Bool :=
  listLexLt (sortedIds a) (sortedIds b)

/-- Modelled from the spec: the body of `operator==` is not under `src/` (the
header only declares it at line 102).  Per the spec, "two candidates are
equal when they have equal width, equal input set, and — only when the
candidate is round-based — equal output set"; "the candidate" is the
left-hand side. -/
def beq (a b : RegisterCandidate) : Bool :=
  decide (a.m_size = b.m_size) && decide (a.m_in_reg = b.m_in_reg) &&
    (!a.m_is_round_based || decide (a.m_out_reg = b.m_out_reg))

/-- Modelled from the spec: the body of `operator<` is not under `src/` (the
header only declares it at line 112).  Per the spec: primary key width
ascending; tie-break lexicographic comparison of the input sets as
canonically sorted identifier sequences; and when those are equal and the
candidate (the left-hand side) is not round-based, the output sets the same
way. -/
def lt (a b : RegisterCandidate) : Bool :=
  if a.m_size < b.m_size then true
  else if b.m_size < a.m_size then false
  else if setLt a.m_in_reg b.m_in_reg then true
  else if setLt b.m_in_reg a.m_in_reg then false
  else if !a.m_is_round_based then setLt a.m_out_reg b.m_out_reg
  else false

/-- Modelled from the spec: the body of the copying round-based constructor
`RegisterCandidate(const std::set<Gate*>&)` (declared at line 69) is not
under `src/`.  Per the spec it creates a round-based candidate with
`input = output = R`, `width = |R|`, and the owning netlist derived from a
representative element of `R` (`netlistOf` resolves a gate identifier to its
owning netlist; the representative is the first element of the set). -/
def ofRoundCopy (netlistOf : Gate → ℕ) (round_reg : Finset Gate) : RegisterCandidate where
  m_netlist := netlistOf ((sortedIds round_reg).headD 0)
  m_size := round_reg.card
  m_is_round_based := true
  m_in_reg := round_reg
  m_out_reg := round_reg

/-- Modelled from the spec: the body of the set-consuming round-based
constructor `RegisterCandidate(std::set<Gate*>&&)` (declared at line 76) is
not under `src/`.  Per the spec it produces the same candidate value as the
copying variant; the two differ only in whether the caller's set survives. -/
def ofRoundMove (netlistOf : Gate → ℕ) (round_reg : Finset Gate) : RegisterCandidate where
  m_netlist := netlistOf ((sortedIds round_reg).headD 0)
  m_size := round_reg.card
  m_is_round_based := true
  m_in_reg := round_reg
  m_out_reg := round_reg

/-- Modelled from the spec: the body of the copying pipelined constructor
`RegisterCandidate(const std::set<Gate*>&, const std::set<Gate*>&)`
(declared at line 84) is not under `src/`.  Per the spec it creates a
pipelined candidate with `input = In`, `output = Out`, `width = |In|`,
topology pipelined regardless of set content. -/
def ofPipelinedCopy (netlistOf : Gate → ℕ) (in_reg out_reg : Finset Gate) : RegisterCandidate where
  m_netlist := netlistOf ((sortedIds in_reg).headD 0)
  m_size := in_reg.card
  m_is_round_based := false
  m_in_reg := in_reg
  m_out_reg := out_reg

/-- Modelled from the spec: the body of the set-consuming pipelined
constructor `RegisterCandidate(std::set<Gate*>&&, std::set<Gate*>&&)`
(declared at line 92) is not under `src/`.  Per the spec it produces the
same candidate value as the copying variant. -/
def ofPipelinedMove (netlistOf : Gate → ℕ) (in_reg out_reg : Finset Gate) : RegisterCandidate where
  m_netlist := netlistOf ((sortedIds in_reg).headD 0)
  m_size := in_reg.card
  m_is_round_based := false
  m_in_reg := in_reg
  m_out_reg := out_reg

/-- The defaulted constructor `RegisterCandidate() = default` (header line
57): the scalar members `m_netlist`, `m_size`, `m_is_round_based` have no
initializers and receive indeterminate values, modelled by arbitrary
parameters; the two `std::set` members default-construct to the empty set. -/
def defaultCtor (n sz : ℕ) (rb : Bool) : RegisterCandidate where
  m_netlist := n
  m_size := sz
  m_is_round_based := rb
  m_in_reg := ∅
  m_out_reg := ∅

/-! ### Helper lemmas on the lexicographic set order -/

theorem listLexLt_irrefl : ∀ l : List ℕ, listLexLt l l = false
  | [] => rfl
  | a :: as => by simp [listLexLt, listLexLt_irrefl as]

theorem listLexLt_asymm (l₁ : List ℕ) :
    ∀ l₂, listLexLt l₁ l₂ = true → listLexLt l₂ l₁ = false := by
  induction l₁ with
  | nil =>
    intro l₂ h
    cases l₂ with
    | nil => simp [listLexLt] at h
    | cons b bs => rfl
  | cons a as ih =>
    intro l₂ h
    cases l₂ with
    | nil => simp [listLexLt] at h
    | cons b bs =>
      simp only [listLexLt] at h ⊢
      rcases Nat.lt_trichotomy a b with hab | hab | hab
      · simp [hab, Nat.lt_asymm hab]
      · subst hab
        simp only [Nat.lt_irrefl, if_false] at h ⊢
        exact ih bs h
      · simp [hab, Nat.lt_asymm hab] at h

theorem listLexLt_connex (l₁ : List ℕ) :
    ∀ l₂, listLexLt l₁ l₂ = false → listLexLt l₂ l₁ = false → l₁ = l₂ := by
  induction l₁ with
  | nil =>
    intro l₂ h₁ _
    cases l₂ with
    | nil => rfl
    | cons b bs => simp [listLexLt] at h₁
  | cons a as ih =>
    intro l₂ h₁ h₂
    cases l₂ with
    | nil => simp [listLexLt] at h₂
    | cons b bs =>
      simp only [listLexLt] at h₁ h₂
      rcases Nat.lt_trichotomy a b with hab | hab | hab
      · simp [hab] at h₁
      · subst hab
        simp only [Nat.lt_irrefl, if_false] at h₁ h₂
        rw [ih bs h₁ h₂]
      · simp [hab, Nat.lt_asymm hab] at h₂

theorem coe_msort (m : Multiset ℕ) : (↑(msort m) : Multiset ℕ) = m := by
  induction m using Quotient.inductionOn with
  | h l => exact Multiset.coe_eq_coe.mpr (List.perm_insertionSort _ l)

theorem sortedIds_inj {a b : Finset Gate} (h : sortedIds a = sortedIds b) : a = b := by
  have hv : a.val = b.val := by
    rw [← coe_msort a.val, ← coe_msort b.val]
    exact congrArg _ h
  exact Finset.val_inj.mp hv

theorem setLt_irrefl (a : Finset Gate) : setLt a a = false :=
  listLexLt_irrefl _

theorem setLt_asymm {a b : Finset Gate} (h : setLt a b = true) : setLt b a = false :=
  listLexLt_asymm _ _ h

theorem setLt_connex {a b : Finset Gate} (h₁ : setLt a b = false) (h₂ : setLt b a = false) :
    a = b :=
  sortedIds_inj (listLexLt_connex _ _ h₁ h₂)

/-! ### Characterizations of the two comparison operators -/

theorem beq_eq_true_iff (a b : RegisterCandidate) :
    beq a b = true ↔
      (a.m_size = b.m_size ∧ a.m_in_reg = b.m_in_reg ∧
        (a.m_is_round_based = true → a.m_out_reg = b.m_out_reg)) := by
  cases hrb : a.m_is_round_based <;> simp [beq, hrb, and_assoc]

theorem beq_refl (a : RegisterCandidate) : beq a a = true :=
  (beq_eq_true_iff a a).mpr ⟨rfl, rfl, fun _ => rfl⟩

theorem lt_eq_true_iff (a b : RegisterCandidate) :
    lt a b = true ↔
      (a.m_size < b.m_size ∨
        (a.m_size = b.m_size ∧
          (setLt a.m_in_reg b.m_in_reg = true ∨
            (a.m_in_reg = b.m_in_reg ∧ a.m_is_round_based = false ∧
              setLt a.m_out_reg b.m_out_reg = true)))) := by
  unfold lt
  rcases Nat.lt_trichotomy a.m_size b.m_size with h | h | h
  · simp [h]
  · by_cases h₁ : setLt a.m_in_reg b.m_in_reg = true
    · simp [h, h₁, Nat.lt_irrefl]
    · by_cases h₂ : setLt b.m_in_reg a.m_in_reg = true
      · have hne : a.m_in_reg ≠ b.m_in_reg := by
          intro he
          rw [he, setLt_irrefl] at h₂
          exact Bool.false_ne_true h₂
        simp [h, h₁, h₂, hne, Nat.lt_irrefl]
      · have he : a.m_in_reg = b.m_in_reg :=
          setLt_connex (Bool.eq_false_iff.mpr h₁) (Bool.eq_false_iff.mpr h₂)
        cases hrb : a.m_is_round_based <;>
          simp [h, h₁, h₂, he, hrb, Nat.lt_irrefl, setLt_irrefl]
  · simp [Nat.lt_asymm h, Nat.ne_of_gt h, h]

theorem lt_self_eq_false (a : RegisterCandidate) : lt a a = false := by
  rw [Bool.eq_false_iff]
  intro h
  rcases (lt_eq_true_iff a a).mp h with h' | ⟨_, h' | ⟨_, _, h'⟩⟩
  · exact Nat.lt_irrefl _ h'
  · rw [setLt_irrefl] at h'
    exact Bool.false_ne_true h'
  · rw [setLt_irrefl] at h'
    exact Bool.false_ne_true h'

theorem lt_asymm_bool {a b : RegisterCandidate} (h₁ : lt a b = true) (h₂ : lt b a = true) :
    False := by
  rcases (lt_eq_true_iff a b).mp h₁ with hs | ⟨hs, hin | ⟨hin, hrb, hout⟩⟩ <;>
    rcases (lt_eq_true_iff b a).mp h₂ with hs' | ⟨hs', hin' | ⟨hin', hrb', hout'⟩⟩ <;>
      try omega
  · rw [setLt_asymm hin] at hin'
    exact Bool.false_ne_true hin'
  · rw [hin', setLt_irrefl] at hin
    exact Bool.false_ne_true hin
  · rw [hin, setLt_irrefl] at hin'
    exact Bool.false_ne_true hin'
  · rw [setLt_asymm hout] at hout'
    exact Bool.false_ne_true hout'

end RegisterCandidate

end Hawkeye

namespace Hawkeye.RegisterCandidate

/-! ### Claim theorems -/

/-- C1: for all register candidates `a` and `b`, `a == b` holds exactly when
they have equal width, equal input set, and — only when the candidate (the
left-hand side) is round-based — equal output set.  The characterization is
an equivalence, so the stated rule decides every pair, in particular the
cross-topology pairs with matching width and input sets. -/
theorem C1_operator_eq_characterization (a b : RegisterCandidate) :
    beq a b = true ↔
      (get_size a = get_size b ∧ get_input_reg a = get_input_reg b ∧
        (is_round_based a = true → get_output_reg a = get_output_reg b)) :=
  beq_eq_true_iff a b

/-- Concrete pipelined candidate with input `{1}` and output `{2}`. -/
def cexPipeA : RegisterCandidate := ofPipelinedCopy (fun _ => 0) {1} {2}

/-- Concrete pipelined candidate with the same width and input set as
`cexPipeA` but a different output set `{3}`. -/
def cexPipeB : RegisterCandidate := ofPipelinedCopy (fun _ => 0) {1} {3}

/-- Concrete round-based candidate on the input set `{1}`. -/
def cexRound : RegisterCandidate := ofRoundCopy (fun _ => 0) {1}

/-- C2 counterexample: two constructed pipelined candidates with equal width
and input set but different output sets are equal under `operator==` (which
skips the output set for non-round-based left-hand sides) yet strictly
ordered by `operator<` (which does consult it), so `a == b` does not hold
iff neither `a < b` nor `b < a`; moreover a pipelined and a round-based
candidate with the same width and input set witness a symmetry failure of
`operator==`. -/
theorem C2_counterexample :
    (beq cexPipeA cexPipeB = true ∧ lt cexPipeA cexPipeB = true ∧
      ¬(beq cexPipeA cexPipeB = true ↔ (lt cexPipeA cexPipeB = false ∧ lt cexPipeB cexPipeA = false))) ∧
    (beq cexPipeA cexRound = true ∧ beq cexRound cexPipeA = false) := by
  decide

/-- C2 amended: `operator==` is reflexive, and symmetric and transitive on
pairs of candidates of the same topology; `operator<` is irreflexive and no
two candidates satisfy both `a < b` and `b < a`; and equality agrees with
the ordering (`a == b` iff neither `a < b` nor `b < a`) on round-based
candidates whose output set equals their input set, as the round-based
constructors produce them.  Across topologies, and for pipelined pairs with
equal input but different output sets, the consistency and symmetry fail as
the counterexample shows. -/
theorem C2_amended_algebraic_properties :
    (∀ a : RegisterCandidate, beq a a = true) ∧
    (∀ a : RegisterCandidate, lt a a = false) ∧
    (∀ a b : RegisterCandidate, ¬(lt a b = true ∧ lt b a = true)) ∧
    (∀ a b : RegisterCandidate, is_round_based a = is_round_based b →
      (beq a b = true ↔ beq b a = true)) ∧
    (∀ a b c : RegisterCandidate, is_round_based a = is_round_based b →
      is_round_based b = is_round_based c →
      beq a b = true → beq b c = true → beq a c = true) ∧
    (∀ a b : RegisterCandidate, is_round_based a = true → is_round_based b = true →
      get_output_reg a = get_input_reg a → get_output_reg b = get_input_reg b →
      (beq a b = true ↔ (lt a b = false ∧ lt b a = false))) := by
  refine ⟨beq_refl, lt_self_eq_false, fun a b ⟨h₁, h₂⟩ => lt_asymm_bool h₁ h₂, ?_, ?_, ?_⟩
  · intro a b hrb
    rw [is_round_based, is_round_based] at hrb
    rw [beq_eq_true_iff, beq_eq_true_iff]
    constructor
    · rintro ⟨h₁, h₂, h₃⟩
      exact ⟨h₁.symm, h₂.symm, fun hb => (h₃ (hrb.trans hb)).symm⟩
    · rintro ⟨h₁, h₂, h₃⟩
      exact ⟨h₁.symm, h₂.symm, fun ha => (h₃ (hrb.symm.trans ha)).symm⟩
  · intro a b c hab hbc h₁ h₂
    obtain ⟨hs₁, hi₁, ho₁⟩ := (beq_eq_true_iff a b).mp h₁
    obtain ⟨hs₂, hi₂, ho₂⟩ := (beq_eq_true_iff b c).mp h₂
    rw [is_round_based, is_round_based] at hab hbc
    refine (beq_eq_true_iff a c).mpr ⟨hs₁.trans hs₂, hi₁.trans hi₂, fun hrb => ?_⟩
    exact (ho₁ hrb).trans (ho₂ (hab.symm.trans hrb))
  · intro a b ha hb hwa hwb
    rw [is_round_based] at ha hb
    rw [get_output_reg, get_input_reg] at hwa hwb
    constructor
    · intro h
      obtain ⟨hs, hin, _⟩ := (beq_eq_true_iff a b).mp h
      constructor
      · rw [Bool.eq_false_iff]
        intro hl
        rcases (lt_eq_true_iff a b).mp hl with h' | ⟨_, h' | ⟨_, hrb, _⟩⟩
        · omega
        · rw [hin, setLt_irrefl] at h'
          exact Bool.false_ne_true h'
        · rw [ha] at hrb
          exact Bool.noConfusion hrb
      · rw [Bool.eq_false_iff]
        intro hl
        rcases (lt_eq_true_iff b a).mp hl with h' | ⟨_, h' | ⟨_, hrb, _⟩⟩
        · omega
        · rw [hin, setLt_irrefl] at h'
          exact Bool.false_ne_true h'
        · rw [hb] at hrb
          exact Bool.noConfusion hrb
    · rintro ⟨h₁, h₂⟩
      have hs : a.m_size = b.m_size := by
        rcases Nat.lt_trichotomy a.m_size b.m_size with h | h | h
        · rw [(lt_eq_true_iff a b).mpr (Or.inl h)] at h₁
          exact Bool.noConfusion h₁
        · exact h
        · rw [(lt_eq_true_iff b a).mpr (Or.inl h)] at h₂
          exact Bool.noConfusion h₂
      have hi₁ : setLt a.m_in_reg b.m_in_reg = false := by
        cases hx : setLt a.m_in_reg b.m_in_reg
        · rfl
        · rw [(lt_eq_true_iff a b).mpr (Or.inr ⟨hs, Or.inl hx⟩)] at h₁
          exact Bool.noConfusion h₁
      have hi₂ : setLt b.m_in_reg a.m_in_reg = false := by
        cases hx : setLt b.m_in_reg a.m_in_reg
        · rfl
        · rw [(lt_eq_true_iff b a).mpr (Or.inr ⟨hs.symm, Or.inl hx⟩)] at h₂
          exact Bool.noConfusion h₂
      have hin : a.m_in_reg = b.m_in_reg := setLt_connex hi₁ hi₂
      exact (beq_eq_true_iff a b).mpr
        ⟨hs, hin, fun _ => by rw [hwa, hwb, hin]⟩

/-- C2 amended witness: the amended properties instantiated at the concrete
round-based candidate on `{1}`. -/
theorem C2_amended_witness :
    beq cexRound cexRound = true ∧
    (beq cexRound cexRound = true ↔ (lt cexRound cexRound = false ∧ lt cexRound cexRound = false)) :=
  ⟨C2_amended_algebraic_properties.1 cexRound,
    C2_amended_algebraic_properties.2.2.2.2.2 cexRound cexRound rfl rfl rfl rfl⟩

/-- C3: for all register candidates `a` and `b`, `a < b` is decided first by
width ascending; on equal widths by lexicographic comparison of the input
sets rendered as canonically sorted sequences of element identifiers; and
only when those are also equal and the candidate is not round-based, by
comparing the output sets the same way.  In particular candidates of
different widths always order by width. -/
theorem C3_operator_lt_characterization (a b : RegisterCandidate) :
    (lt a b = true ↔
      (get_size a < get_size b ∨
        (get_size a = get_size b ∧
          (setLt (get_input_reg a) (get_input_reg b) = true ∨
            (get_input_reg a = get_input_reg b ∧ is_round_based a = false ∧
              setLt (get_output_reg a) (get_output_reg b) = true))))) ∧
    (get_size a < get_size b → lt a b = true) :=
  ⟨lt_eq_true_iff a b, fun h => (lt_eq_true_iff a b).mpr (Or.inl h)⟩

/-- C3 witness: a width-1 candidate with the large element identifier `7`
still orders before a width-2 candidate with small identifiers. -/
theorem C3_witness :
    get_size (ofRoundCopy (fun _ => 0) {7}) < get_size (ofRoundCopy (fun _ => 0) {1, 2}) ∧
    lt (ofRoundCopy (fun _ => 0) {7}) (ofRoundCopy (fun _ => 0) {1, 2}) = true :=
  ⟨by decide, (C3_operator_lt_characterization _ _).2 (by decide)⟩

/-- C9: neither `operator==` nor `operator<` consults the owning netlist:
replacing the `m_netlist` fields of the two operands by arbitrary values
leaves both comparison results unchanged, and two candidates that differ
only in their netlist (as `get_netlist` reports) compare equal. -/
theorem C9_netlist_not_consulted (a b : RegisterCandidate) (n₁ n₂ : ℕ) :
    beq { a with m_netlist := n₁ } { b with m_netlist := n₂ } = beq a b ∧
    lt { a with m_netlist := n₁ } { b with m_netlist := n₂ } = lt a b ∧
    beq { a with m_netlist := n₁ } { a with m_netlist := n₂ } = true ∧
    get_netlist { a with m_netlist := n₁ } = n₁ ∧
    get_netlist { a with m_netlist := n₂ } = n₂ :=
  ⟨rfl, rfl, beq_refl _, rfl, rfl⟩

/-- C4: for any two non-empty, equal-width element sets `In` and `Out`, both
two-set constructors produce a pipelined candidate (`is_round_based` is
`false`) with input set `In`, output set `Out`, and width `|In|` — the
topology is fixed by the constructor, not by set content, so this holds even
when `In = Out`. -/
theorem C4_pipelined_constructor (f : Gate → ℕ) (inSet outSet : Finset Gate)
    (h₁ : inSet.Nonempty) (h₂ : outSet.Nonempty) (h₃ : inSet.card = outSet.card) :
    (is_round_based (ofPipelinedCopy f inSet outSet) = false ∧
      get_input_reg (ofPipelinedCopy f inSet outSet) = inSet ∧
      get_output_reg (ofPipelinedCopy f inSet outSet) = outSet ∧
      get_size (ofPipelinedCopy f inSet outSet) = inSet.card) ∧
    (is_round_based (ofPipelinedMove f inSet outSet) = false ∧
      get_input_reg (ofPipelinedMove f inSet outSet) = inSet ∧
      get_output_reg (ofPipelinedMove f inSet outSet) = outSet ∧
      get_size (ofPipelinedMove f inSet outSet) = inSet.card) :=
  ⟨⟨rfl, rfl, rfl, rfl⟩, ⟨rfl, rfl, rfl, rfl⟩⟩

/-- C4 witness: the two-set constructor applied with `In = Out = {5}` still
yields a pipelined (not round-based) candidate. -/
theorem C4_witness :
    ({5} : Finset Gate).Nonempty ∧ ({5} : Finset Gate).card = ({5} : Finset Gate).card ∧
    is_round_based (ofPipelinedCopy (fun _ => 0) {5} {5}) = false :=
  ⟨by decide, rfl,
    (C4_pipelined_constructor (fun _ => 0) {5} {5} (by decide) (by decide) rfl).1.1⟩

/-- C5: for any non-empty element set `R`, both single-set constructors
produce a round-based candidate (`is_round_based` is `true`) whose input set
and output set both equal `R` and whose width `get_size` equals `|R|`. -/
theorem C5_round_constructor (f : Gate → ℕ) (R : Finset Gate) (h : R.Nonempty) :
    (is_round_based (ofRoundCopy f R) = true ∧
      get_input_reg (ofRoundCopy f R) = R ∧
      get_output_reg (ofRoundCopy f R) = R ∧
      get_size (ofRoundCopy f R) = R.card) ∧
    (is_round_based (ofRoundMove f R) = true ∧
      get_input_reg (ofRoundMove f R) = R ∧
      get_output_reg (ofRoundMove f R) = R ∧
      get_size (ofRoundMove f R) = R.card) :=
  ⟨⟨rfl, rfl, rfl, rfl⟩, ⟨rfl, rfl, rfl, rfl⟩⟩

/-- C5 witness: the single-set constructor on `{1, 2}` (the spec's
Scenario A) gives a round-based candidate of width 2 with input and output
both `{1, 2}`. -/
theorem C5_witness :
    ({1, 2} : Finset Gate).Nonempty ∧
    is_round_based (ofRoundCopy (fun _ => 0) {1, 2}) = true ∧
    get_input_reg (ofRoundCopy (fun _ => 0) {1, 2}) = {1, 2} ∧
    get_size (ofRoundCopy (fun _ => 0) {1, 2}) = 2 := by
  have h := (C5_round_constructor (fun _ => 0) {1, 2} (by decide)).1
  exact ⟨by decide, h.1, h.2.1, by decide⟩

/-- C7: for every candidate built by any of the four set-taking constructors
(under the spec's construction preconditions of non-empty and, for the
pipelined forms, equal-width sets), `get_size` equals the cardinality of
`get_input_reg`; and for the pipelined (non-round-based) forms the input and
output sets have equal cardinality. -/
theorem C7_width_invariant (f : Gate → ℕ) (R inSet outSet : Finset Gate)
    (hR : R.Nonempty) (h₁ : inSet.Nonempty) (h₂ : outSet.Nonempty)
    (h₃ : inSet.card = outSet.card) :
    (get_size (ofRoundCopy f R) = (get_input_reg (ofRoundCopy f R)).card) ∧
    (get_size (ofRoundMove f R) = (get_input_reg (ofRoundMove f R)).card) ∧
    (get_size (ofPipelinedCopy f inSet outSet) = (get_input_reg (ofPipelinedCopy f inSet outSet)).card) ∧
    (get_size (ofPipelinedMove f inSet outSet) = (get_input_reg (ofPipelinedMove f inSet outSet)).card) ∧
    (is_round_based (ofPipelinedCopy f inSet outSet) = false ∧
      (get_input_reg (ofPipelinedCopy f inSet outSet)).card = (get_output_reg (ofPipelinedCopy f inSet outSet)).card) ∧
    (is_round_based (ofPipelinedMove f inSet outSet) = false ∧
      (get_input_reg (ofPipelinedMove f inSet outSet)).card = (get_output_reg (ofPipelinedMove f inSet outSet)).card) :=
  ⟨rfl, rfl, rfl, rfl, ⟨rfl, h₃⟩, ⟨rfl, h₃⟩⟩

/-- C7 witness: the invariant instantiated at `R = {1, 2}` and the pipelined
pair `{1, 2}`, `{3, 4}` (the spec's Scenario B). -/
theorem C7_witness :
    ({1, 2} : Finset Gate).Nonempty ∧ ({3, 4} : Finset Gate).Nonempty ∧
    ({1, 2} : Finset Gate).card = ({3, 4} : Finset Gate).card ∧
    get_size (ofRoundCopy (fun _ => 0) {1, 2}) = (get_input_reg (ofRoundCopy (fun _ => 0) {1, 2})).card ∧
    (get_input_reg (ofPipelinedCopy (fun _ => 0) {1, 2} {3, 4})).card =
      (get_output_reg (ofPipelinedCopy (fun _ => 0) {1, 2} {3, 4})).card := by
  have h := C7_width_invariant (fun _ => 0) {1, 2} {1, 2} {3, 4}
    (by decide) (by decide) (by decide) (by decide)
  exact ⟨by decide, by decide, by decide, h.1, h.2.2.2.2.1.2⟩

/-- C8: for any non-empty element set `R` the candidates built by the
copying and by the set-consuming round-based constructor from the same `R`
compare equal under `operator==` and neither is less than the other under
`operator<`; the analogous equivalence holds for the two pipelined
constructors on the same pair of sets. -/
theorem C8_copy_move_equivalence (f : Gate → ℕ) (R inSet outSet : Finset Gate)
    (hR : R.Nonempty) (h₁ : inSet.Nonempty) (h₂ : outSet.Nonempty)
    (h₃ : inSet.card = outSet.card) :
    (beq (ofRoundCopy f R) (ofRoundMove f R) = true ∧
      lt (ofRoundCopy f R) (ofRoundMove f R) = false ∧
      lt (ofRoundMove f R) (ofRoundCopy f R) = false) ∧
    (beq (ofPipelinedCopy f inSet outSet) (ofPipelinedMove f inSet outSet) = true ∧
      lt (ofPipelinedCopy f inSet outSet) (ofPipelinedMove f inSet outSet) = false ∧
      lt (ofPipelinedMove f inSet outSet) (ofPipelinedCopy f inSet outSet) = false) :=
  ⟨⟨beq_refl _, lt_self_eq_false _, lt_self_eq_false _⟩,
    ⟨beq_refl _, lt_self_eq_false _, lt_self_eq_false _⟩⟩

/-- C8 witness: the copy/move equivalence instantiated at `R = {1, 2}` and
the pipelined pair `{1, 2}`, `{3, 4}` (the spec's Scenario C). -/
theorem C8_witness :
    ({1, 2} : Finset Gate).Nonempty ∧
    beq (ofRoundCopy (fun _ => 0) {1, 2}) (ofRoundMove (fun _ => 0) {1, 2}) = true ∧
    lt (ofRoundCopy (fun _ => 0) {1, 2}) (ofRoundMove (fun _ => 0) {1, 2}) = false ∧
    lt (ofRoundMove (fun _ => 0) {1, 2}) (ofRoundCopy (fun _ => 0) {1, 2}) = false := by
  have h := (C8_copy_move_equivalence (fun _ => 0) {1, 2} {1, 2} {3, 4}
    (by decide) (by decide) (by decide) (by decide)).1
  exact ⟨by decide, h.1, h.2.1, h.2.2⟩

/-- C10: the defaulted constructor performs no member initialization, so the
interface admits default-constructed candidates whose scalar members hold
arbitrary (indeterminate) values; for any non-zero residual `m_size` value
the invariant `get_size = |get_input_reg|` fails on such a candidate, while
it holds for candidates built by the set-taking constructors. -/
theorem C10_default_constructed_unsafe (n sz : ℕ) (rb : Bool) (hsz : sz ≠ 0)
    (f : Gate → ℕ) (R : Finset Gate) (hR : R.Nonempty) :
    get_size (defaultCtor n sz rb) ≠ (get_input_reg (defaultCtor n sz rb)).card ∧
    get_size (ofRoundCopy f R) = (get_input_reg (ofRoundCopy f R)).card := by
  constructor
  · simpa [defaultCtor, get_size, get_input_reg] using hsz
  · rfl

/-- C10 witness: a default-constructed candidate whose indeterminate size
member happens to hold 1 violates the width invariant that the round-based
constructor on `{1}` satisfies. -/
theorem C10_witness :
    (1 : ℕ) ≠ 0 ∧ ({1} : Finset Gate).Nonempty ∧
    get_size (defaultCtor 0 1 false) ≠ (get_input_reg (defaultCtor 0 1 false)).card ∧
    get_size (ofRoundCopy (fun _ => 0) {1}) = (get_input_reg (ofRoundCopy (fun _ => 0) {1})).card := by
  have h := C10_default_constructed_unsafe 0 1 false (by decide) (fun _ => 0) {1} (by decide)
  exact ⟨by decide, by decide, h.1, h.2⟩

end Hawkeye.RegisterCandidate
